import Mathlib

/-!
Verification of the call-bridge / collections-agent repository.

The development shallowly embeds, in Lean, the parts of the source that the
verified properties are about:

* `app/services/rag_service.py` — the conversation state machine
  (`RAGService.process_utterance` and its per-stage handlers), including the
  word-to-digit normalisation used by date-of-birth and account verification.
* `app/routers/inbound_call.py`, `app/routers/multi_language_elevanlabs.py`,
  `app/routers/language_switch.py` — the telephony ingress parser
  (`twilio_receiver`) and the downlink pump (`deepgram_receiver`) of both
  language-switch variants (in-band voice update vs. full reconnect).

Caller utterances and digit strings are modelled as `List Char` (Python `str`
processed by `.lower()`, `.replace(...)` and digit filtering); audio payloads
as `List Nat` (the bytes obtained from base64-decoding a media payload — the
base64 codec itself is a bijection the properties never look inside).
-/

namespace CallBridge

/-- The space character, used by the word-splitting and filler lemmas. -/
def spaceChar : Char := Char.ofNat 32

/-- Python `str.lower()` restricted to ASCII, character by character. -/
def lowerChar (c : Char) : Char :=
  if 65 ≤ c.toNat ∧ c.toNat ≤ 90 then Char.ofNat (c.toNat + 32) else c

/-- Lower-case an entire string (Python `user_text.lower()`). -/
def toLowerL (s : List Char) : List Char := s.map lowerChar

/-- `startsWithL w s` holds when `w` is an initial segment of `s`. -/
def startsWithL : List Char → List Char → Bool
  | [], _ => true
  | _ :: _, [] => false
  | a :: as, b :: bs => a == b && startsWithL as bs

/-- Python's `needle in haystack` substring test: `containsSub hay needle`. -/
def containsSub (hay needle : List Char) : Bool :=
  match hay with
  | [] => needle.isEmpty
  | _ :: t => startsWithL needle hay || containsSub t needle

/-- Fuel-indexed worker for `replaceAll`; the fuel only serves structural
termination and is irrelevant once it dominates the input length. -/
def replaceAllAux (w n : List Char) : Nat → List Char → List Char
  | _, [] => []
  | 0, s => s
  | fuel + 1, c :: cs =>
    if startsWithL w (c :: cs) && !w.isEmpty then
      n ++ replaceAllAux w n fuel (cs.drop (w.length - 1))
    else
      c :: replaceAllAux w n fuel cs

/-- Python `s.replace(w, n)` for a non-empty pattern `w`: replace all
non-overlapping occurrences of `w` in `s` by `n`, scanning left to right.
(All patterns used by the source are non-empty; an empty pattern is treated
as no-op here.) -/
def replaceAll (w n s : List Char) : List Char := replaceAllAux w n s.length s

/-- Apply a list of `(word, digits)` replacements in order, as the source's
`for word, num in word_to_num: text = text.replace(word, num)` loop. -/
def applyReplacements (pairs : List (List Char × List Char)) (s : List Char) :
    List Char :=
  pairs.foldl (fun acc p => replaceAll p.1 p.2 acc) s

/-- `''.join(c for c in s if c.isdigit())`. -/
def extractDigits (s : List Char) : List Char := s.filter Char.isDigit

/-- Python `str.strip()` restricted to spaces. -/
def trimL (s : List Char) : List Char :=
  ((s.dropWhile (· == spaceChar)).reverse.dropWhile (· == spaceChar)).reverse

/-- Split on runs of spaces, dropping empty pieces (Python `str.split()`). -/
def splitWords (s : List Char) : List (List Char) :=
  (s.splitOn spaceChar).filter (fun w => !w.isEmpty)

end CallBridge

namespace CallBridge

/-! ## Data model of `app/services/rag_service.py` -/

/-- The conversation stages (the string values assigned to
`session["stage"]` and returned in result dicts by `RAGService`). -/
inductive Stage where
  | initialGreeting
  | confirmIdentity
  | verifyDob
  | verifyAccount
  | verifyAddress
  | verificationComplete
  | paymentDiscussion
  | transfer
  | noRecord
  | errorStage
deriving DecidableEq

/-- A parsed date of birth (the `date` object obtained from the record's
ISO-format `date_of_birth`). -/
structure Dob where
  year : Nat
  month : Nat
  day : Nat
deriving DecidableEq

/-- Borrower record fields consumed by the state machine.  `dueAmountStr` and
`dueDateStr` hold the already-rendered amount/date used only inside the
verification-complete summary text (`${due_amount:.2f}` and the
`%B %d, %Y` date), whose numeric formatting no property inspects. -/
structure Borrower where
  name : String
  dateOfBirth : Option Dob
  accountLastFour : List Char
  propertyAddress : List Char
  dueAmountStr : String
  dueDateStr : String
  paymentStatus : String
  hardshipEligible : Bool
deriving DecidableEq

/-- Per-caller session state (`RAGService._get_session`).  History entries are
`(role, content)`; the wall-clock timestamp stored alongside them is outside
the embedding. -/
structure Session where
  stage : Stage
  attempts : Nat
  verifiedDob : Bool
  verifiedAccount : Bool
  verifiedAddress : Bool
  conversationHistory : List (String × String)
  partialDob : List Char
  nameConfirmed : Bool
deriving DecidableEq

/-- The fresh session created on first contact for a caller key. -/
def freshSession : Session :=
  { stage := .initialGreeting
    attempts := 0
    verifiedDob := false
    verifiedAccount := false
    verifiedAddress := false
    conversationHistory := []
    partialDob := []
    nameConfirmed := false }

/-- The dict returned by `process_utterance` and the stage handlers. -/
structure RagResult where
  response : String
  stage : Stage
  transfer : Bool
deriving DecidableEq

/-- Shorthand for building one `(word, digits)` replacement pair. -/
def rp (w n : String) : List Char × List Char := (w.data, n.data)

/-- The `word_to_num` replacement list of `_handle_verify_dob`, in source
order (months first, then teens, tens, ordinals, single digits). -/
def dobWordMap : List (List Char × List Char) :=
  [ rp "september" "09", rp "november" "11", rp "december" "12",
    rp "february" "02", rp "january" "01", rp "october" "10",
    rp "august" "08", rp "april" "04", rp "march" "03",
    rp "june" "06", rp "july" "07", rp "sept" "09",
    rp "may" "05", rp "jan" "01", rp "feb" "02",
    rp "mar" "03", rp "apr" "04", rp "jun" "06",
    rp "jul" "07", rp "aug" "08", rp "sep" "09",
    rp "oct" "10", rp "nov" "11", rp "dec" "12",
    rp "thirteen" "13", rp "fourteen" "14", rp "fifteen" "15",
    rp "sixteen" "16", rp "seventeen" "17", rp "eighteen" "18",
    rp "nineteen" "19", rp "eleventh" "11", rp "twelfth" "12",
    rp "thirteenth" "13", rp "fourteenth" "14", rp "fifteenth" "15",
    rp "sixteenth" "16", rp "seventeenth" "17", rp "eighteenth" "18",
    rp "nineteenth" "19",
    rp "twenty" "20", rp "thirty" "30", rp "forty" "40",
    rp "fifty" "50", rp "sixty" "60", rp "seventy" "70",
    rp "eighty" "80", rp "ninety" "90",
    rp "twentieth" "20", rp "thirtieth" "30", rp "thirty first" "31",
    rp "tenth" "10", rp "eleven" "11", rp "twelve" "12",
    rp "zero" "0", rp "one" "1", rp "two" "2", rp "three" "3",
    rp "four" "4", rp "five" "5", rp "six" "6", rp "seven" "7",
    rp "eight" "8", rp "nine" "9", rp "ten" "10",
    rp "first" "1", rp "second" "2", rp "third" "3",
    rp "fourth" "4", rp "fifth" "5", rp "sixth" "6",
    rp "seventh" "7", rp "eighth" "8", rp "ninth" "9" ]

/-- The `word_to_num` dict of `_handle_verify_account`, in insertion order
(including "oh" for zero). -/
def acctWordMap : List (List Char × List Char) :=
  [ rp "zero" "0", rp "one" "1", rp "two" "2", rp "three" "3", rp "four" "4",
    rp "five" "5", rp "six" "6", rp "seven" "7", rp "eight" "8",
    rp "nine" "9", rp "oh" "0" ]

/-- Zero-padded two-digit rendering (`strftime` `%m`/`%d`/`%y` on the
month/day/two-digit-year of a valid date, all below 100). -/
def pad2 (n : Nat) : List Char :=
  [Nat.digitChar (n / 10 % 10), Nat.digitChar (n % 10)]

/-- Zero-padded four-digit rendering (`strftime` `%Y` for years below
10000). -/
def pad4 (n : Nat) : List Char :=
  [Nat.digitChar (n / 1000 % 10), Nat.digitChar (n / 100 % 10),
   Nat.digitChar (n / 10 % 10), Nat.digitChar (n % 10)]

/-- The five digit orderings a date of birth is rendered into
(`%m%d%Y`, `%d%m%Y`, `%Y%m%d`, `%m%d%y`, `%d%m%y`). -/
def dobFormats (d : Dob) : List (List Char) :=
  [ pad2 d.month ++ pad2 d.day ++ pad4 d.year,
    pad2 d.day ++ pad2 d.month ++ pad4 d.year,
    pad4 d.year ++ pad2 d.month ++ pad2 d.day,
    pad2 d.month ++ pad2 d.day ++ pad2 (d.year % 100),
    pad2 d.day ++ pad2 d.month ++ pad2 (d.year % 100) ]

/-- Digits extracted from one verify-dob utterance after the word-to-number
normalisation pass. -/
def dobDigits (u : List Char) : List Char :=
  extractDigits (applyReplacements dobWordMap (toLowerL u))

/-- The `verified` flag computed by `_handle_verify_dob`: the accumulated
digits equal a format, or (with at least 6 digits) contain a format as a
substring, or the current turn's digits alone equal a format. -/
def dobVerifiedFlag (b : Borrower) (sofar u : List Char) : Bool :=
  let cur := dobDigits u
  let acc := sofar ++ cur
  let fmts := match b.dateOfBirth with
    | some d => dobFormats d
    | none => []
  fmts.any (fun f => f == acc || (decide (6 ≤ acc.length) && containsSub acc f))
    || fmts.any (fun f => f == cur)

/-- Digits extracted from one verify-account utterance after the
spoken-digit normalisation pass (including "oh" as zero). -/
def acctDigits (u : List Char) : List Char :=
  extractDigits (applyReplacements acctWordMap (toLowerL u))

/-- The `verified` flag of `_handle_verify_account`: exact match of the
stored last-four, or (with at least 4 digits extracted) substring match. -/
def accountVerifiedFlag (b : Borrower) (u : List Char) : Bool :=
  b.accountLastFour == acctDigits u
    || (decide (4 ≤ (acctDigits u).length)
          && containsSub (acctDigits u) b.accountLastFour)

/-- The `verified` flag of `_handle_verify_address`: the first word of the
stored address occurs in the lowered utterance, or the leading street number
equals the digits of the utterance. -/
def addressVerifiedFlag (b : Borrower) (u : List Char) : Bool :=
  let addrWords := splitWords (toLowerL b.propertyAddress)
  let firstWord := addrWords.headD []
  let streetNumber := extractDigits firstWord
  (!firstWord.isEmpty && containsSub (toLowerL u) firstWord)
    || (!streetNumber.isEmpty && !(extractDigits u).isEmpty
          && streetNumber == extractDigits u)

/-- The affirmative keyword list of `_handle_confirm_identity`. -/
def affirmWords : List (List Char) :=
  [ "yes".data, "yeah".data, "yep".data, "sure".data, "speaking".data,
    "this is".data, "correct".data, "that\x27s me".data, "thats me".data,
    "i am".data, "im".data, "yup".data, "uh huh".data ]

/-- The negative keyword list of `_handle_confirm_identity`. -/
def negWords : List (List Char) :=
  [ "no".data, "nope".data, "not".data, "wrong".data, "different".data,
    "isn\x27t".data ]

/-- `any(word in user_lower for word in affirmative_words)`. -/
def affirmativeFlag (u : List Char) : Bool :=
  affirmWords.any (fun w => containsSub (toLowerL u) w)

/-- `any(word in user_lower for word in negative_words)`. -/
def negativeFlag (u : List Char) : Bool :=
  negWords.any (fun w => containsSub (toLowerL u) w)

end CallBridge

namespace CallBridge

/-! ## Stage handlers of `RAGService` -/

/-- Response of `_handle_verify_dob` when more digits are still needed. -/
def dobContinueResp : String :=
  "I\x27ve got that. Please continue with the rest of your date of birth."

/-- Apology returned by `process_utterance` on a datastore lookup miss. -/
def noRecordResp : String :=
  "I\x27m sorry, I couldn\x27t locate your account in our system. Let me connect you to a representative who can assist you. Please hold."

/-- Error response of the `process_utterance` exception handler. -/
def techDifficultiesResp : String :=
  "I\x27m experiencing technical difficulties. Let me connect you to a representative who can help."

/-- `_handle_initial_greeting`: introduce the agent, move to identity
confirmation. -/
def handleInitialGreeting (s : Session) (b : Borrower) : Session × RagResult :=
  let s := { s with stage := .confirmIdentity, attempts := 0 }
  (s, { response := "Hi, this is Avery calling from Essex Mortgage on a recorded line. May I please speak with " ++ b.name ++ "?"
        stage := .confirmIdentity
        transfer := false })

/-- `_handle_confirm_identity`: affirmative advances to `verify_dob`,
negative transfers, ambiguous retries — transferring once `attempts`
reaches 2. -/
def handleConfirmIdentity (s : Session) (b : Borrower) (u : List Char) :
    Session × RagResult :=
  if affirmativeFlag u then
    let s := { s with nameConfirmed := true, stage := .verifyDob, attempts := 0 }
    (s, { response := "Thank you for confirming. For security purposes, I need to verify a few details. Could you please provide your full date of birth?"
          stage := .verifyDob
          transfer := false })
  else if negativeFlag u then
    let s := { s with stage := .transfer }
    (s, { response := "I apologize for the confusion. Let me connect you to a representative who can assist you properly. Please hold."
          stage := .transfer
          transfer := true })
  else
    let s := { s with attempts := s.attempts + 1 }
    if 2 ≤ s.attempts then
      let s := { s with stage := .transfer }
      (s, { response := "I\x27m having difficulty confirming your identity. Let me transfer you to a representative. Please hold."
            stage := .transfer
            transfer := true })
    else
      (s, { response := "I\x27m sorry, I didn\x27t catch that. Am I speaking with " ++ b.name ++ "? Please say yes or no."
            stage := s.stage
            transfer := false })

/-- `_handle_verify_dob`: accumulate digits across turns; verify against the
five renderings; with 8 or more accumulated digits a mismatch consumes an
attempt (transfer at 3); with fewer, prompt for continuation. -/
def handleVerifyDob (s : Session) (b : Borrower) (u : List Char) :
    Session × RagResult :=
  let acc := s.partialDob ++ dobDigits u
  if dobVerifiedFlag b s.partialDob u then
    let s := { s with verifiedDob := true, stage := .verifyAccount,
                      attempts := 0, partialDob := [] }
    (s, { response := "Thank you. Now, could you please tell me the last four digits of your bank account number on file?"
          stage := .verifyAccount
          transfer := false })
  else if 8 ≤ acc.length then
    let s := { s with attempts := s.attempts + 1, partialDob := [] }
    if 3 ≤ s.attempts then
      let s := { s with stage := .transfer }
      (s, { response := "I\x27m sorry, I couldn\x27t verify your date of birth after three attempts. For your security, I\x27ll connect you to a representative who can assist you. Please hold."
            stage := .transfer
            transfer := true })
    else
      (s, { response := "That doesn\x27t match our records. This is attempt " ++ toString s.attempts ++ " of 3. Please provide your complete date of birth, including month, day, and year."
            stage := s.stage
            transfer := false })
  else
    let s := { s with partialDob := acc }
    (s, { response := dobContinueResp
          stage := s.stage
          transfer := false })

/-- `_handle_verify_account`: check the normalised digits against the stored
last-four; mismatch consumes an attempt (transfer at 3). -/
def handleVerifyAccount (s : Session) (b : Borrower) (u : List Char) :
    Session × RagResult :=
  if accountVerifiedFlag b u then
    let s := { s with verifiedAccount := true, stage := .verifyAddress,
                      attempts := 0 }
    (s, { response := "Perfect. Lastly, can you confirm the street number or first word of your property address on file?"
          stage := .verifyAddress
          transfer := false })
  else
    let s := { s with attempts := s.attempts + 1 }
    if 3 ≤ s.attempts then
      let s := { s with stage := .transfer }
      (s, { response := "I\x27m sorry, I couldn\x27t verify your account number. Let me connect you to a representative for further assistance. Please hold."
            stage := .transfer
            transfer := true })
    else
      (s, { response := "I didn\x27t catch that correctly. Could you please repeat the last four digits of your bank account number?"
            stage := s.stage
            transfer := false })

/-- `_handle_verification_complete`: synchronously compose the account
summary and advance to `payment_discussion`.  When the stored name has no
words, `name.split()[0]` raises in the source; the exception is caught by
`process_utterance`, which yields the technical-difficulties error result
(after the stage was already set to `payment_discussion`). -/
def handleVerificationComplete (s : Session) (b : Borrower) :
    Session × RagResult :=
  let s := { s with stage := .paymentDiscussion }
  match splitWords b.name.data with
  | [] => (s, { response := techDifficultiesResp
                stage := .errorStage
                transfer := true })
  | w :: _ =>
      (s, { response := "Thank you for verifying your information, " ++ String.mk w ++ ". I\x27m calling today regarding your mortgage account with Essex Mortgage. Our records show you have an outstanding balance of $" ++ b.dueAmountStr ++ " with a due date of " ++ b.dueDateStr ++ ". Would you like to make a payment today, or do you have any questions about your account?"
            stage := .paymentDiscussion
            transfer := false })

/-- `_handle_verify_address`: verify by first word or street number; on
success fall through to `_handle_verification_complete`; mismatch consumes an
attempt (transfer at 3). -/
def handleVerifyAddress (s : Session) (b : Borrower) (u : List Char) :
    Session × RagResult :=
  if addressVerifiedFlag b u then
    let s := { s with verifiedAddress := true, stage := .verificationComplete,
                      attempts := 0 }
    handleVerificationComplete s b
  else
    let s := { s with attempts := s.attempts + 1 }
    if 3 ≤ s.attempts then
      let s := { s with stage := .transfer }
      (s, { response := "I\x27m sorry, I couldn\x27t verify your address. For your security, I\x27ll connect you to a representative. Please hold."
            stage := .transfer
            transfer := true })
    else
      (s, { response := "That doesn\x27t match our records. Could you please confirm the street number or first word of your property address?"
            stage := s.stage
            transfer := false })

/-- Substring test against each phrase of a keyword list
(`any(phrase in text_lower for phrase in [...])`). -/
def anyPhrase (textLower : List Char) (phrases : List String) : Bool :=
  phrases.any (fun p => containsSub textLower p.data)

/-- `_handle_payment_discussion`: keyword-classify the post-verification
utterance and reply from fixed templates, transferring for
already-paid-but-unconfirmed, hardship and transfer requests. -/
def handlePaymentDiscussion (s : Session) (b : Borrower) (u : List Char) :
    Session × RagResult :=
  let t := toLowerL u
  if anyPhrase t ["already paid", "paid already", "i paid", "payment made",
      "sent payment", "made payment", "paid it", "sent it"] then
    if b.paymentStatus = "paid" then
      (s, { response := "Thank you for confirming. Our records show your payment has been received and processed. Would you like me to send you a confirmation email?"
            stage := s.stage
            transfer := false })
    else
      let s := { s with stage := .transfer }
      (s, { response := "I see. Our current records don\x27t show a recent payment, but it may still be processing. Let me connect you to a payment specialist who can verify this for you immediately. Please hold."
            stage := .transfer
            transfer := true })
  else if anyPhrase t ["make a payment", "pay now", "pay today", "i\x27ll pay",
        "want to pay", "would like to pay", "yes", "sure", "okay"]
      && !anyPhrase t ["can\x27t", "cannot", "won\x27t", "wont"] then
    (s, { response := "Excellent. I can help you with that. We accept payment by bank draft, debit card, or credit card. Which payment method would you prefer today?"
          stage := s.stage
          transfer := false })
  else if anyPhrase t ["hardship", "financial", "assistance", "help",
      "can\x27t pay", "cannot pay", "difficult", "struggling", "program",
      "trouble"] then
    let s := { s with stage := .transfer }
    if b.hardshipEligible then
      (s, { response := "I understand, and I\x27m here to help. Based on your account, you may qualify for one of our assistance programs. Let me connect you with a hardship specialist who can discuss your options. Please hold."
            stage := .transfer
            transfer := true })
    else
      (s, { response := "I understand your situation. Let me connect you with a specialist who can review your account and discuss what options might be available to you. Please hold."
            stage := .transfer
            transfer := true })
  else if anyPhrase t ["question", "explain", "why", "how much", "balance",
      "what is", "tell me", "confused", "don\x27t understand",
      "dont understand"] then
    (s, { response := "I\x27d be happy to help answer your questions. What specifically would you like to know about your account or balance?"
          stage := s.stage
          transfer := false })
  else if anyPhrase t ["transfer", "representative", "speak to someone",
      "talk to", "human", "person", "someone else"] then
    let s := { s with stage := .transfer }
    (s, { response := "Of course. Let me connect you to a representative right away. Please hold."
          stage := .transfer
          transfer := true })
  else if anyPhrase t ["no", "not now", "not interested", "later",
      "can\x27t talk", "busy", "not good time", "call back"] then
    (s, { response := "I understand. Is there a better time for us to reach you, or would you prefer to call us back at your convenience? Our customer service line is available Monday through Friday, 9 AM to 5 PM."
          stage := s.stage
          transfer := false })
  else
    (s, { response := "I want to make sure I help you properly. Are you looking to make a payment today, do you have questions about your account, or would you like to speak with a specialist?"
          stage := s.stage
          transfer := false })

/-- `RAGService.process_utterance` for one caller turn.  `lookup` is the
result of `db.get_borrower_by_phone` for the caller key.  Processing is
blocked while the session is in the terminal `transfer` stage; a lookup miss
immediately places the session in `transfer`; otherwise the utterance is
appended to the history and routed to the handler of the current stage. -/
def processUtterance (s : Session) (lookup : Option Borrower)
    (userText : List Char) : Session × RagResult :=
  let userText := trimL userText
  if s.stage = Stage.transfer then
    (s, { response := "", stage := .transfer, transfer := true })
  else
    match lookup with
    | none =>
        ({ s with stage := .transfer },
         { response := noRecordResp, stage := .noRecord, transfer := true })
    | some b =>
        let s := if userText.isEmpty then s
          else { s with conversationHistory :=
                  s.conversationHistory ++ [("user", String.mk userText)] }
        match s.stage with
        | .initialGreeting => handleInitialGreeting s b
        | .confirmIdentity => handleConfirmIdentity s b userText
        | .verifyDob => handleVerifyDob s b userText
        | .verifyAccount => handleVerifyAccount s b userText
        | .verifyAddress => handleVerifyAddress s b userText
        | .verificationComplete => handleVerificationComplete s b
        | .paymentDiscussion => handlePaymentDiscussion s b userText
        | st => (s, { response := "I\x27m sorry, I didn\x27t catch that. Could you please repeat?"
                      stage := st
                      transfer := false })

end CallBridge

namespace CallBridge

/-! ## Telephony ingress (`twilio_receiver`)

The `twilio_receiver` coroutine is textually identical in
`app/routers/inbound_call.py`, `app/routers/multi_language_elevanlabs.py`
and `app/routers/language_switch.py`: parse `start` / `media` / `stop`
events, append decoded media payloads to `audio_buffer`, flush the whole
buffer to `audio_queue` once it holds at least `BUFFER_SIZE = 8000` bytes,
and `break` on `stop` (a transport disconnect likewise just ends the loop).
Media payloads are modelled by their decoded bytes (`base64.b64decode` is a
bijection no property inspects). -/

/-- One parsed Twilio stream event. -/
inductive TwilioEvent where
  | start (streamSid callSid : String)
  | media (chunk : List Nat)
  | stop
  | unknownEvent
deriving DecidableEq

/-- Local state of `twilio_receiver`: the captured ids, the audio buffer,
the chunks put on `audio_queue` (in order), and the ids put on
`stream_sid_queue`. -/
structure TwState where
  streamSid : Option String
  callSid : Option String
  buffer : List Nat
  queue : List (List Nat)
  sidQueue : List String
deriving DecidableEq

/-- The receiver's state when the call connects. -/
def twInit : TwState :=
  { streamSid := none, callSid := none, buffer := [], queue := [],
    sidQueue := [] }

/-- Effect of one event on the receiver state.  Note the `media` branch
never consults `streamSid`: media events are buffered whether or not a
`start` event has been seen. -/
def twStep (s : TwState) : TwilioEvent → TwState
  | .start sid csid =>
      { s with streamSid := some sid, callSid := some csid,
               sidQueue := s.sidQueue ++ [sid] }
  | .media chunk =>
      let buf := s.buffer ++ chunk
      if 8000 ≤ buf.length then { s with buffer := [], queue := s.queue ++ [buf] }
      else { s with buffer := buf }
  | .stop => s
  | .unknownEvent => s

/-- Run the receive loop over an event stream; `stop` breaks out of the
loop (events after it are never read), and exhausting the list models a
transport disconnect.  Whatever is left in `buffer` is simply dropped. -/
def twRun (s : TwState) : List TwilioEvent → TwState
  | [] => s
  | .stop :: _ => s
  | e :: es => twRun (twStep s e) es

/-- The caller audio carried by the stream up to (excluding) the first
`stop` event, concatenated in arrival order. -/
def mediaBytes : List TwilioEvent → List Nat
  | [] => []
  | .stop :: _ => []
  | .media c :: es => c ++ mediaBytes es
  | _ :: es => mediaBytes es

/-! ## Agent-service events and the two downlink pumps -/

/-- One entry of a `FunctionCallRequest.functions` array.  `argLanguage` is
the `language` key of the JSON-decoded `arguments` (absent key modelled as
`none`; both handlers default it to `"en"`). -/
structure FuncEntry where
  name : String
  id : String
  clientSide : Bool
  argLanguage : Option String
deriving DecidableEq

/-- Events arriving on the agent-service connection, as dispatched by the
`deepgram_receiver` pumps. -/
inductive AgentEvent where
  | functionCallRequest (functions : List FuncEntry)
  | userStartedSpeaking
  | conversationText (role content : String)
  | errorEvent (code desc : String)
  | binaryAudio (audio : List Nat)
  | otherEvent
deriving DecidableEq

/-- `DEEPGRAM_VOICES["en"]`. -/
def enVoice : String := "aura-2-thalia-en"

/-- `DEEPGRAM_VOICES["es"]`. -/
def esVoice : String := "aura-2-celeste-es"

/-- `DEEPGRAM_VOICES.get(language, DEEPGRAM_VOICES["en"])`. -/
def voiceFor (language : String) : String :=
  if language = "en" then enVoice
  else if language = "es" then esVoice
  else enVoice

/-- `language_instructions["en"]` of the in-band variant. -/
def enInstr : String :=
  "Continue the conversation in English. Use professional and friendly tone. Remember you are Avery from Essex Mortgage."

/-- `language_instructions["es"]` of the in-band variant. -/
def esInstr : String :=
  "Continúa la conversación en español. Usa tono profesional y amigable. Recuerda que eres Avery de Essex Mortgage."

/-- `language_instructions.get(language, language_instructions["en"])`. -/
def instrFor (language : String) : String :=
  if language = "en" then enInstr
  else if language = "es" then esInstr
  else enInstr

/-- Python error raised when a local variable is read before assignment
(`UnboundLocalError`). -/
inductive PyErr where
  | unboundLocal
deriving DecidableEq

/-- Messages emitted by the in-band (`multi_language_elevanlabs.py`)
downlink pump: buffer clears and media to the telephony leg, voice/prompt
updates and function responses to the agent service. -/
inductive MlAction where
  | clearAudio
  | updateSpeak (voice : String)
  | updatePromptMsg (p : String)
  | fnResponse (id name content : String)
  | forwardMedia (audio : List Nat)
deriving DecidableEq

/-- Locals of the in-band `deepgram_receiver` that persist across loop
iterations.  `functionName`, `functionCallId` and `lastFunc` model the
Python locals `function_name`, `function_call_id` and the loop variable
`func`, which are only (re)assigned inside the `for func in functions:`
loop — `none` means "never assigned so far". -/
structure MlState where
  currentVoice : String
  functionName : Option String
  functionCallId : Option String
  lastFunc : Option FuncEntry
  streamSid : String
deriving DecidableEq

/-- Receiver state right after the `stream_sid_queue.get()`. -/
def mlInit (sid : String) : MlState :=
  { currentVoice := enVoice, functionName := none, functionCallId := none,
    lastFunc := none, streamSid := sid }

/-- One iteration of the in-band `deepgram_receiver` loop.  On a
`FunctionCallRequest` the `for` loop assigns `func` for every entry but
`function_name` / `function_call_id` only for client-side entries; the
`if function_name == "switch_language"` test sits OUTSIDE the loop, so if
`function_name` was never assigned the iteration raises
`UnboundLocalError` (modelled as `Except.error`), which the surrounding
`except` clause turns into pump termination. -/
def mlStep (s : MlState) (e : AgentEvent) :
    Except PyErr (MlState × List MlAction) :=
  match e with
  | .functionCallRequest fns =>
      let s1 := fns.foldl (fun st f =>
        let st := { st with lastFunc := some f }
        if f.clientSide then
          { st with functionName := some f.name, functionCallId := some f.id }
        else st) s
      match s1.functionName with
      | none => .error .unboundLocal
      | some nm =>
          if nm = "switch_language" then
            match s1.lastFunc, s1.functionCallId with
            | some fn, some fcid =>
                let language := fn.argLanguage.getD "en"
                let newVoice := voiceFor language
                .ok ({ s1 with currentVoice := newVoice },
                     [.clearAudio, .updateSpeak newVoice,
                      .updatePromptMsg (instrFor language),
                      .fnResponse fcid "switch_language"
                        ("Successfully switched to " ++ language
                          ++ ". Voice is now " ++ newVoice ++ ".")])
            | _, _ => .error .unboundLocal
          else .ok (s1, [])
  | .userStartedSpeaking => .ok (s, [.clearAudio])
  | .conversationText _ _ => .ok (s, [])
  | .errorEvent _ _ => .ok (s, [])
  | .binaryAudio a => .ok (s, [.forwardMedia a])
  | .otherEvent => .ok (s, [])

/-- Run the in-band pump until the events are exhausted or an iteration
raises; emitted actions are concatenated in order. -/
def mlRun (s : MlState) : List AgentEvent → MlState × List MlAction × Option PyErr
  | [] => (s, [], none)
  | e :: es =>
      match mlStep s e with
      | .error err => (s, [], some err)
      | .ok (s', acts) =>
          let r := mlRun s' es
          (r.1, acts ++ r.2.1, r.2.2)

/-- Messages emitted by the reconnect-variant (`language_switch.py`)
downlink pump.  `reconnect` stands for `initialize_deepgram_connection`
(close the old agent connection, open a new one, send a fresh `Settings`
for the target language seeded with the trimmed history). -/
inductive LsAction where
  | clearAudio
  | sendFnResponse (id name content : String)
  | reconnect (language : String) (history : List (String × String))
  | forwardMedia (audio : List Nat)
deriving DecidableEq

/-- State of the reconnect-variant receiver: the current language and the
conversation history (entries `(role, content)`; the constant
`"type": "History"` tag is omitted). -/
structure LsState where
  currentLanguage : String
  conversationHistory : List (String × String)
  streamSid : String
deriving DecidableEq

/-- Receiver state right after the `stream_sid_queue.get()`. -/
def lsInit (sid : String) : LsState :=
  { currentLanguage := "en", conversationHistory := [], streamSid := sid }

/-- `conversation_history[-10:] if len(conversation_history) > 10 else
conversation_history`. -/
def lastTen (h : List (String × String)) : List (String × String) :=
  if 10 < h.length then h.drop (h.length - 10) else h

/-- One iteration of the reconnect-variant `deepgram_receiver` loop.  Here
the `switch_language` check is INSIDE the `for func in functions:` loop:
an equal-target call is acknowledged with a `FunctionCallResponse` and
nothing else happens; a different target clears the telephony buffer and
reconnects in the new language (the reconnect-failure fallback, which the
source logs and swallows keeping the old connection, is not claim-relevant
and the success path is modelled). -/
def lsStep (s : LsState) (e : AgentEvent) : LsState × List LsAction :=
  match e with
  | .functionCallRequest fns =>
      fns.foldl (fun acc f =>
        if f.clientSide then
          if f.name = "switch_language" then
            let target := f.argLanguage.getD "en"
            if target = acc.1.currentLanguage then
              (acc.1, acc.2 ++ [.sendFnResponse f.id "switch_language"
                  ("Already speaking in " ++ target)])
            else
              ({ acc.1 with currentLanguage := target },
               acc.2 ++ [.clearAudio,
                 .reconnect target (lastTen acc.1.conversationHistory)])
          else acc
        else acc) (s, [])
  | .userStartedSpeaking => (s, [.clearAudio])
  | .conversationText role content =>
      ({ s with conversationHistory := s.conversationHistory ++ [(role, content)] },
       [])
  | .errorEvent _ _ => (s, [])
  | .binaryAudio a => (s, [.forwardMedia a])
  | .otherEvent => (s, [])

/-- Run the reconnect-variant pump over an event stream. -/
def lsRun (s : LsState) : List AgentEvent → LsState × List LsAction
  | [] => (s, [])
  | e :: es =>
      let p := lsStep s e
      ((lsRun p.1 es).1, p.2 ++ (lsRun p.1 es).2)

end CallBridge

namespace CallBridge

/-- A concrete borrower record used by the concrete evaluations below
(stored date of birth 1986-09-14, account last-four 1234, address
"742 Evergreen Terrace"). -/
def sampleBorrower : Borrower :=
  { name := "John Smith", dateOfBirth := some ⟨1986, 9, 14⟩,
    accountLastFour := "1234".data,
    propertyAddress := "742 Evergreen Terrace".data,
    dueAmountStr := "1500.00", dueDateStr := "November 01, 2025",
    paymentStatus := "unpaid", hardshipEligible := false }

/-- Iterate `_handle_verify_dob` over successive caller turns, exactly as
`process_utterance` routes turns while the session stage stays
`verify_dob`, stopping once the handler moves the stage elsewhere. -/
def runDobTurns (b : Borrower) (s : Session) :
    List (List Char) → Session × List RagResult
  | [] => (s, [])
  | u :: us =>
    let p := handleVerifyDob s b u
    if p.1.stage = Stage.verifyDob then
      ((runDobTurns b p.1 us).1, p.2 :: (runDobTurns b p.1 us).2)
    else (p.1, [p.2])

/-- A leading "spoken filler" for account verification: a prefix ending in
a space whose account-normalisation yields no digit at all (so it carries
no spoken digit words, no "oh", and no literal digits). -/
def IsFiller (f : List Char) : Prop :=
  (∃ g, f = g ++ [spaceChar]) ∧ acctDigits f = []

end CallBridge

namespace CallBridge

/-! ## Helper lemmas -/

set_option maxRecDepth 10000

theorem replaceAllAux_nil (w n : List Char) (fuel : Nat) :
    replaceAllAux w n fuel [] = [] := by
  cases fuel <;> rfl

theorem replaceAllAux_irrel (w n : List Char) :
    ∀ (f1 : Nat) (s : List Char) (f2 : Nat), s.length ≤ f1 → s.length ≤ f2 →
      replaceAllAux w n f1 s = replaceAllAux w n f2 s := by
  intro f1
  induction f1 with
  | zero =>
      intro s f2 h1 _
      have hs : s = [] := List.eq_nil_of_length_eq_zero (Nat.le_zero.mp h1)
      subst hs
      rw [replaceAllAux_nil, replaceAllAux_nil]
  | succ k ih =>
      intro s f2 h1 h2
      cases s with
      | nil => rw [replaceAllAux_nil, replaceAllAux_nil]
      | cons c cs =>
          cases f2 with
          | zero => simp at h2
          | succ m =>
              simp only [replaceAllAux]
              simp only [List.length_cons, Nat.add_le_add_iff_right] at h1 h2
              split
              · have hd : (cs.drop (w.length - 1)).length ≤ cs.length := by
                  simp only [List.length_drop]
                  omega
                rw [ih (cs.drop (w.length - 1)) m (le_trans hd h1) (le_trans hd h2)]
              · rw [ih cs m h1 h2]

theorem replaceAll_nil (w n : List Char) : replaceAll w n [] = [] := rfl

theorem replaceAll_cons (w n : List Char) (c : Char) (cs : List Char) :
    replaceAll w n (c :: cs) =
      if startsWithL w (c :: cs) && !w.isEmpty then
        n ++ replaceAll w n (cs.drop (w.length - 1))
      else
        c :: replaceAll w n cs := by
  show replaceAllAux w n (cs.length + 1) (c :: cs) = _
  simp only [replaceAllAux]
  split
  · rw [replaceAllAux_irrel w n cs.length (cs.drop (w.length - 1))
        (cs.drop (w.length - 1)).length
        (by simp only [List.length_drop]; omega) (le_refl _)]
    rfl
  · rfl

theorem extractDigits_append (a b : List Char) :
    extractDigits (a ++ b) = extractDigits a ++ extractDigits b := by
  simp [extractDigits, List.filter_append]

end CallBridge

namespace CallBridge

set_option maxRecDepth 10000

/-! ## Claims -/

/-- C7: for a caller key with no datastore record, the first processed
utterance returns stage `no_record` with `transfer = true` and the
caller-facing apology, and the session is immediately placed in the
terminal `transfer` stage — no retry. -/
theorem C7_no_record_immediate_transfer (u : List Char) :
    processUtterance freshSession none u =
      ({ freshSession with stage := Stage.transfer },
       { response := noRecordResp, stage := Stage.noRecord, transfer := true }) := by
  rfl

/-- C9: in the in-band voice-update variant (`multi_language_elevanlabs.py`),
a `FunctionCallRequest` whose `functions` array is empty — or has no
client-side entry — reaches the `if function_name == "switch_language"`
test with `function_name` never assigned (it is only bound inside the
loop's guarded branch), so the iteration raises `UnboundLocalError` and the
pump dies: the handler is not total on such events. -/
theorem C9_function_name_unbound :
    mlStep (mlInit "MZ1") (.functionCallRequest []) =
        .error .unboundLocal ∧
    mlStep (mlInit "MZ1")
        (.functionCallRequest [⟨"switch_language", "fc-7", false, some "es"⟩]) =
        .error .unboundLocal ∧
    (mlRun (mlInit "MZ1") [.functionCallRequest []]).2.2 =
        some .unboundLocal := by
  exact ⟨rfl, rfl, rfl⟩

/-- C2: the spec's end-to-end scenario fails on the code.  From
`confirm_identity`, "yes" does advance the session to `verify_dob`; but
"September fourteen nineteen eighty six" with stored date of birth
1986-09-14 does NOT verify: the word map turns "nineteen eighty six" into
"19"+"80"+"6", so the accumulated digits are "091419806", which match none
of the five renderings — the turn consumes attempt 1 of 3 and the stage
stays `verify_dob` instead of moving to `verify_account`. -/
theorem C2_dob_scenario_fails_in_code :
    (let s0 := { freshSession with stage := Stage.confirmIdentity };
     let step1 := processUtterance s0 (some sampleBorrower) "yes".data;
     let step2 := processUtterance step1.1 (some sampleBorrower)
        "September fourteen nineteen eighty six".data;
     step1.1.stage = Stage.verifyDob ∧
     dobDigits "September fourteen nineteen eighty six".data = "091419806".data ∧
     step2.1.stage = Stage.verifyDob ∧ step2.1.verifiedDob = false ∧
     step2.1.attempts = 1 ∧ step2.2.transfer = false) := by
  decide

-- One flushing step of the shared `twilio_receiver`: a single media event
-- whose decoded chunk already reaches the 8000-byte threshold is flushed to
-- the agent queue even though no `start` event was ever seen.
theorem twRun_single_media_flush (chunk : List Nat) (h : 8000 ≤ chunk.length) :
    twRun twInit [.media chunk] = { twInit with queue := [chunk] } := by
  show twStep twInit (.media chunk) = _
  simp only [twStep, twInit, List.nil_append]
  rw [if_pos h]

-- One buffering step of the shared `twilio_receiver` below the threshold.
theorem twRun_single_media_buffer (chunk : List Nat) (h : chunk.length < 8000) :
    twRun twInit [.media chunk] = { twInit with buffer := chunk } := by
  show twStep twInit (.media chunk) = _
  simp only [twStep, twInit, List.nil_append]
  rw [if_neg (by omega)]

/-- C5 counterexample: an event stream consisting of a single `media` event
(8000 zero bytes) and NO `start` event.  The decoded audio is not dropped:
it is buffered and flushed to the agent-service queue (`queue = [chunk]`)
while `streamSid` is still unset — the receiver has no
media-before-start check at all. -/
theorem C5_counterexample_media_before_start_forwarded :
    (twRun twInit [.media (List.replicate 8000 0)]).queue =
        [List.replicate 8000 0] ∧
    (twRun twInit [.media (List.replicate 8000 0)]).streamSid = none := by
  rw [twRun_single_media_flush (List.replicate 8000 0)
      (by rw [List.length_replicate])]
  exact ⟨rfl, rfl⟩

/-- C5 (amended): a `media` event arriving before any `start` event is
processed exactly like any other media — decoded, appended to the audio
buffer, and flushed to the agent connection once the buffer reaches 8000
bytes; nothing is logged-and-dropped and no ordering check exists. -/
theorem C5_media_before_start_buffered_and_forwarded :
    (∀ chunk : List Nat, chunk.length < 8000 →
        twRun twInit [.media chunk] = { twInit with buffer := chunk })
  ∧ (∀ chunk : List Nat, 8000 ≤ chunk.length →
        twRun twInit [.media chunk] = { twInit with queue := [chunk] }) :=
  ⟨twRun_single_media_buffer, twRun_single_media_flush⟩

/-- C5 witness: both branches of the amended claim at concrete chunks. -/
theorem C5_media_before_start_witness :
    twRun twInit [.media [7]] = { twInit with buffer := [7] } ∧
    twRun twInit [.media (List.replicate 8000 0)] =
      { twInit with queue := [List.replicate 8000 0] } :=
  ⟨C5_media_before_start_buffered_and_forwarded.1 [7] (by norm_num),
   C5_media_before_start_buffered_and_forwarded.2 (List.replicate 8000 0)
     (by rw [List.length_replicate])⟩

end CallBridge

namespace CallBridge

set_option maxRecDepth 10000

/-- C1 counterexample: the identity-confirmation step does NOT allow 3
failed attempts.  With a fresh `confirm_identity` session, the first
ambiguous utterance ("banana") leaves the stage at `confirm_identity` with
`attempts = 1`, and already the SECOND ambiguous utterance transfers: a
third attempt at that step is impossible, contradicting the claim that
every verification step allows 3 failed attempts before `transfer`. -/
theorem C1_counterexample_identity_two_attempts :
    (let s0 := { freshSession with stage := Stage.confirmIdentity };
     let step1 := processUtterance s0 (some sampleBorrower) "banana".data;
     let step2 := processUtterance step1.1 (some sampleBorrower) "banana".data;
     step1.1.stage = Stage.confirmIdentity ∧ step1.1.attempts = 1 ∧
     step1.2.transfer = false ∧
     step2.1.stage = Stage.transfer ∧ step2.2.transfer = true) := by
  decide

/-- C1 (amended): `transfer` is terminal and idempotent — once the session
stage is `transfer`, `process_utterance` returns immediately and leaves the
session unchanged for every subsequent utterance.  The `verify_dob`,
`verify_account` and `verify_address` steps move the stage to `transfer`
on their third failed attempt; the identity-confirmation step, however,
transfers already on its second unrecognised attempt (`attempts >= 2`),
not the third. -/
theorem C1_transfer_terminal_and_attempt_limits :
    (∀ (s : Session) (bo : Option Borrower) (u : List Char),
        s.stage = Stage.transfer →
        processUtterance s bo u =
          (s, { response := "", stage := Stage.transfer, transfer := true }))
  ∧ (∀ (s : Session) (b : Borrower) (u : List Char),
        affirmativeFlag u = false → negativeFlag u = false →
        s.attempts = 1 →
        (handleConfirmIdentity s b u).1.stage = Stage.transfer ∧
        (handleConfirmIdentity s b u).2.transfer = true)
  ∧ (∀ (s : Session) (b : Borrower) (u : List Char),
        dobVerifiedFlag b s.partialDob u = false →
        8 ≤ (s.partialDob ++ dobDigits u).length →
        s.attempts = 2 →
        (handleVerifyDob s b u).1.stage = Stage.transfer ∧
        (handleVerifyDob s b u).2.transfer = true)
  ∧ (∀ (s : Session) (b : Borrower) (u : List Char),
        accountVerifiedFlag b u = false →
        s.attempts = 2 →
        (handleVerifyAccount s b u).1.stage = Stage.transfer ∧
        (handleVerifyAccount s b u).2.transfer = true)
  ∧ (∀ (s : Session) (b : Borrower) (u : List Char),
        addressVerifiedFlag b u = false →
        s.attempts = 2 →
        (handleVerifyAddress s b u).1.stage = Stage.transfer ∧
        (handleVerifyAddress s b u).2.transfer = true) := by
  refine ⟨?_, ?_, ?_, ?_, ?_⟩
  · intro s bo u h
    simp [processUtterance, h]
  · intro s b u haff hneg hatt
    simp [handleConfirmIdentity, haff, hneg, hatt]
  · intro s b u hflag hlen hatt
    rw [List.length_append] at hlen
    simp [handleVerifyDob, hflag, hlen, hatt]
  · intro s b u hflag hatt
    simp [handleVerifyAccount, hflag, hatt]
  · intro s b u hflag hatt
    simp [handleVerifyAddress, hflag, hatt]

/-- C1 witness: each limb of the amended claim exercised at a concrete
input (a transferred session stays put; two ambiguous identity turns, a
third dob/account/address failure each transfer). -/
theorem C1_transfer_terminal_witness :
    (processUtterance { freshSession with stage := Stage.transfer } none
        "hello".data =
      ({ freshSession with stage := Stage.transfer },
       { response := "", stage := Stage.transfer, transfer := true }))
  ∧ ((handleConfirmIdentity
        { freshSession with stage := Stage.confirmIdentity, attempts := 1 }
        sampleBorrower "banana".data).1.stage = Stage.transfer ∧
     (handleConfirmIdentity
        { freshSession with stage := Stage.confirmIdentity, attempts := 1 }
        sampleBorrower "banana".data).2.transfer = true)
  ∧ ((handleVerifyDob
        { freshSession with stage := Stage.verifyDob, attempts := 2 }
        sampleBorrower "11111111".data).1.stage = Stage.transfer ∧
     (handleVerifyDob
        { freshSession with stage := Stage.verifyDob, attempts := 2 }
        sampleBorrower "11111111".data).2.transfer = true)
  ∧ ((handleVerifyAccount
        { freshSession with stage := Stage.verifyAccount, attempts := 2 }
        sampleBorrower "9999".data).1.stage = Stage.transfer ∧
     (handleVerifyAccount
        { freshSession with stage := Stage.verifyAccount, attempts := 2 }
        sampleBorrower "9999".data).2.transfer = true)
  ∧ ((handleVerifyAddress
        { freshSession with stage := Stage.verifyAddress, attempts := 2 }
        sampleBorrower "oak street".data).1.stage = Stage.transfer ∧
     (handleVerifyAddress
        { freshSession with stage := Stage.verifyAddress, attempts := 2 }
        sampleBorrower "oak street".data).2.transfer = true) :=
  ⟨C1_transfer_terminal_and_attempt_limits.1 _ none _ rfl,
   C1_transfer_terminal_and_attempt_limits.2.1 _ sampleBorrower _
     (by decide) (by decide) rfl,
   C1_transfer_terminal_and_attempt_limits.2.2.1 _ sampleBorrower _
     (by decide) (by decide) rfl,
   C1_transfer_terminal_and_attempt_limits.2.2.2.1 _ sampleBorrower _
     (by decide) rfl,
   C1_transfer_terminal_and_attempt_limits.2.2.2.2 _ sampleBorrower _
     (by decide) rfl⟩

end CallBridge

namespace CallBridge

/-- C4 counterexample: in the in-band variant
(`multi_language_elevanlabs.py`), a client-side `switch_language` request
whose target ("en") equals the current session language (the receiver
starts with the English voice, `voiceFor "en"`) is NOT a no-op: the
handler — which never compares target and current language — still emits a
buffer clear, an `UpdateSpeak` and an `UpdatePrompt` before the
`FunctionCallResponse`, contradicting "no voice/prompt update". -/
theorem C4_counterexample_inband_updates_on_equal_target :
    (mlInit "MZ1").currentVoice = voiceFor "en" ∧
    mlStep (mlInit "MZ1")
        (.functionCallRequest [⟨"switch_language", "fc-1", true, some "en"⟩]) =
      .ok ({ currentVoice := voiceFor "en",
             functionName := some "switch_language",
             functionCallId := some "fc-1",
             lastFunc := some ⟨"switch_language", "fc-1", true, some "en"⟩,
             streamSid := "MZ1" },
           [.clearAudio, .updateSpeak (voiceFor "en"),
            .updatePromptMsg (instrFor "en"),
            .fnResponse "fc-1" "switch_language"
              "Successfully switched to en. Voice is now aura-2-thalia-en."]) :=
  ⟨rfl, rfl⟩

/-- C4 (amended): in the reconnect variant (`language_switch.py`), a
client-side `switch_language` request whose target equals the current
session language triggers no reconnect, no buffer clear and no voice or
prompt update — the state is unchanged and exactly one
`FunctionCallResponse` for that call id is emitted, so the call is never
left pending.  In the in-band variant a well-formed client-side
`switch_language` request is also always acknowledged with a
`FunctionCallResponse` for its call id, but — since that handler never
compares the target with the current language — it additionally emits a
buffer clear, an `UpdateSpeak` and an `UpdatePrompt` even when the target
equals the current language. -/
theorem C4_equal_target_switch_language :
    (∀ (st : LsState) (f : FuncEntry),
        f.clientSide = true → f.name = "switch_language" →
        f.argLanguage.getD "en" = st.currentLanguage →
        lsStep st (.functionCallRequest [f]) =
          (st, [.sendFnResponse f.id "switch_language"
                  ("Already speaking in " ++ st.currentLanguage)]))
  ∧ (∀ (st : MlState) (f : FuncEntry),
        f.clientSide = true → f.name = "switch_language" →
        mlStep st (.functionCallRequest [f]) =
          .ok ({ st with
                   currentVoice := voiceFor (f.argLanguage.getD "en"),
                   functionName := some "switch_language",
                   functionCallId := some f.id,
                   lastFunc := some f },
               [.clearAudio, .updateSpeak (voiceFor (f.argLanguage.getD "en")),
                .updatePromptMsg (instrFor (f.argLanguage.getD "en")),
                .fnResponse f.id "switch_language"
                  ("Successfully switched to " ++ f.argLanguage.getD "en"
                    ++ ". Voice is now "
                    ++ voiceFor (f.argLanguage.getD "en") ++ ".")])) := by
  constructor
  · intro st f hc hn ht
    simp [lsStep, hc, hn, ht]
  · intro st f hc hn
    simp [mlStep, hc, hn]

/-- C4 witness: both limbs at a concrete equal-target request. -/
theorem C4_equal_target_witness :
    lsStep (lsInit "S7")
        (.functionCallRequest [⟨"switch_language", "fc-2", true, some "en"⟩]) =
      (lsInit "S7",
       [.sendFnResponse "fc-2" "switch_language" "Already speaking in en"]) ∧
    mlStep (mlInit "S7")
        (.functionCallRequest [⟨"switch_language", "fc-2", true, some "en"⟩]) =
      .ok ({ mlInit "S7" with
               currentVoice := voiceFor "en",
               functionName := some "switch_language",
               functionCallId := some "fc-2",
               lastFunc := some ⟨"switch_language", "fc-2", true, some "en"⟩ },
           [.clearAudio, .updateSpeak (voiceFor "en"),
            .updatePromptMsg (instrFor "en"),
            .fnResponse "fc-2" "switch_language"
              ("Successfully switched to en. Voice is now "
                ++ voiceFor "en" ++ ".")]) :=
  ⟨C4_equal_target_switch_language.1 (lsInit "S7")
      ⟨"switch_language", "fc-2", true, some "en"⟩ rfl rfl rfl,
   C4_equal_target_switch_language.2 (mlInit "S7")
      ⟨"switch_language", "fc-2", true, some "en"⟩ rfl rfl⟩

end CallBridge

namespace CallBridge

-- Running the reconnect-variant pump over a concatenation composes.
theorem lsRun_append (xs ys : List AgentEvent) :
    ∀ s : LsState,
      lsRun s (xs ++ ys) =
        ((lsRun (lsRun s xs).1 ys).1,
         (lsRun s xs).2 ++ (lsRun (lsRun s xs).1 ys).2) := by
  induction xs with
  | nil => intro s; simp [lsRun]
  | cons e es ih =>
      intro s
      simp only [List.cons_append, lsRun, List.append_eq]
      rw [ih (lsStep s e).1]
      simp [List.append_assoc]

-- Running the in-band pump over a concatenation composes as long as the
-- first part raised no error.
theorem mlRun_append_ok (xs ys : List AgentEvent) :
    ∀ s : MlState, (mlRun s xs).2.2 = none →
      (mlRun s (xs ++ ys)).2.1 =
        (mlRun s xs).2.1 ++ (mlRun (mlRun s xs).1 ys).2.1 := by
  induction xs with
  | nil => intro s _; simp [mlRun]
  | cons e es ih =>
      intro s herr
      cases hstep : mlStep s e with
      | error err =>
          simp only [mlRun, hstep] at herr
          exact absurd herr (by simp)
      | ok p =>
          obtain ⟨s', acts⟩ := p
          simp only [mlRun, hstep, List.cons_append, List.append_eq] at herr ⊢
          rw [ih s' herr, List.append_assoc]

/-- C6: in both downlink pumps, a `UserStartedSpeaking` event makes the
pump emit a buffer-clear instruction to the telephony leg, positioned in
the output stream strictly before everything emitted for the events that
follow — in particular before the next binary audio frame is forwarded as
a media event.  (For the in-band pump this holds provided the preceding
events did not already kill the pump with its unbound-local error.) -/
theorem C6_barge_in_clear_before_next_media :
    (∀ (s : LsState) (es1 es2 : List AgentEvent),
        (lsRun s (es1 ++ .userStartedSpeaking :: es2)).2 =
          (lsRun s es1).2 ++ LsAction.clearAudio ::
            (lsRun (lsRun s es1).1 es2).2)
  ∧ (∀ (s : MlState) (es1 es2 : List AgentEvent),
        (mlRun s es1).2.2 = none →
        (mlRun s (es1 ++ .userStartedSpeaking :: es2)).2.1 =
          (mlRun s es1).2.1 ++ MlAction.clearAudio ::
            (mlRun (mlRun s es1).1 es2).2.1) := by
  constructor
  · intro s es1 es2
    rw [lsRun_append]
    simp [lsRun, lsStep]
  · intro s es1 es2 herr
    rw [mlRun_append_ok _ _ _ herr]
    simp [mlRun, mlStep]

/-- C6 witness: the in-band limb at a concrete stream — audio, then
barge-in, then audio: the clear lands between the two media frames. -/
theorem C6_barge_in_witness :
    (mlRun (mlInit "S1") [.binaryAudio [1]]).2.2 = none ∧
    (mlRun (mlInit "S1")
        ([.binaryAudio [1]] ++ .userStartedSpeaking :: [.binaryAudio [2]])).2.1 =
      (mlRun (mlInit "S1") [.binaryAudio [1]]).2.1 ++ MlAction.clearAudio ::
        (mlRun (mlRun (mlInit "S1") [.binaryAudio [1]]).1
          [.binaryAudio [2]]).2.1 :=
  ⟨rfl, C6_barge_in_clear_before_next_media.2 (mlInit "S1")
     [.binaryAudio [1]] [.binaryAudio [2]] rfl⟩

end CallBridge

namespace CallBridge

-- The bytes forwarded to the agent queue, followed by the bytes still in
-- the buffer, are exactly the media bytes received so far, in order.
theorem twRun_join (es : List TwilioEvent) :
    ∀ s : TwState,
      (twRun s es).queue.join ++ (twRun s es).buffer =
        s.queue.join ++ s.buffer ++ mediaBytes es := by
  induction es with
  | nil => intro s; simp [twRun, mediaBytes]
  | cons e es ih =>
      intro s
      cases e with
      | start sid csid =>
          simp only [twRun, mediaBytes, twStep]
          rw [ih]
      | media chunk =>
          simp only [twRun, mediaBytes, twStep]
          split <;> rw [ih] <;> simp [List.append_assoc]
      | stop => simp [twRun, mediaBytes]
      | unknownEvent =>
          simp only [twRun, mediaBytes, twStep]
          exact ih s

-- The buffer stays below the 8000-byte threshold, and every flushed chunk
-- reached it.
theorem twRun_bounds (es : List TwilioEvent) :
    ∀ s : TwState, s.buffer.length < 8000 →
      (∀ c ∈ s.queue, 8000 ≤ c.length) →
      (twRun s es).buffer.length < 8000 ∧
      ∀ c ∈ (twRun s es).queue, 8000 ≤ c.length := by
  induction es with
  | nil => intro s hb hq; exact ⟨hb, hq⟩
  | cons e es ih =>
      intro s hb hq
      cases e with
      | start sid csid => exact ih _ hb hq
      | media chunk =>
          simp only [twRun, twStep]
          split
          next h =>
            refine ih _ (by simp) ?_
            intro c hc
            simp only [List.mem_append, List.mem_singleton] at hc
            rcases hc with hc | hc
            · exact hq c hc
            · subst hc; exact h
          next h =>
            exact ih _ (Nat.not_le.mp h) hq
      | stop => exact ⟨hb, hq⟩
      | unknownEvent => exact ih _ hb hq

/-- C10: over any telephony event stream, the uplink forwards caller audio
to the agent connection only as flushed chunks: the flushed chunks, in
order, followed by the residual buffer, reconstruct exactly the media
bytes received before the `stop` event (or disconnect); every flushed
chunk had reached the 8000-byte threshold, and the residual buffer —
always under 8000 bytes — is silently discarded, never forwarded. -/
theorem C10_uplink_flush_discipline (es : List TwilioEvent) :
    (twRun twInit es).queue.join ++ (twRun twInit es).buffer = mediaBytes es ∧
    (twRun twInit es).buffer.length < 8000 ∧
    ∀ c ∈ (twRun twInit es).queue, 8000 ≤ c.length := by
  have h1 := twRun_join es twInit
  have h2 := twRun_bounds es twInit (by simp [twInit]) (by simp [twInit])
  simp only [twInit, List.join_nil, List.nil_append] at h1
  exact ⟨h1, h2.1, h2.2⟩

end CallBridge

namespace CallBridge

set_option maxRecDepth 10000

-- Every rendering of a date of birth has 8 digits (4-digit-year forms) or
-- 6 digits (2-digit-year forms).
theorem dobFormats_length (d : Dob) (fmt : List Char) (h : fmt ∈ dobFormats d) :
    fmt.length = 8 ∨ fmt.length = 6 := by
  simp only [dobFormats, List.mem_cons, List.not_mem_nil, or_false] at h
  rcases h with h | h | h | h | h <;> subst h <;> simp [pad2, pad4]

-- The verified branch of `_handle_verify_dob`.
theorem handleVerifyDob_verified (s : Session) (b : Borrower) (u : List Char)
    (h : dobVerifiedFlag b s.partialDob u = true) :
    handleVerifyDob s b u =
      ({ s with verifiedDob := true, stage := .verifyAccount, attempts := 0,
                partialDob := [] },
       { response := "Thank you. Now, could you please tell me the last four digits of your bank account number on file?"
         stage := .verifyAccount
         transfer := false }) := by
  simp [handleVerifyDob, h]

-- The not-enough-digits branch of `_handle_verify_dob`: accumulate and
-- prompt for continuation, consuming no attempt.
theorem handleVerifyDob_continue (s : Session) (b : Borrower) (u : List Char)
    (h1 : dobVerifiedFlag b s.partialDob u = false)
    (h2 : (s.partialDob ++ dobDigits u).length < 8) :
    handleVerifyDob s b u =
      ({ s with partialDob := s.partialDob ++ dobDigits u },
       { response := dobContinueResp, stage := s.stage, transfer := false }) := by
  rw [List.length_append] at h2
  have h2' : ¬ 8 ≤ s.partialDob.length + (dobDigits u).length := by omega
  simp [handleVerifyDob, h1, h2']

-- If the digits accumulated so far spell a stored rendering in full, the
-- handler's `verified` flag is set.
theorem dobVerifiedFlag_of_acc_eq (b : Borrower) (d : Dob)
    (hb : b.dateOfBirth = some d) (fmt : List Char) (hfmt : fmt ∈ dobFormats d)
    (s : Session) (u : List Char)
    (h : s.partialDob ++ dobDigits u = fmt) :
    dobVerifiedFlag b s.partialDob u = true := by
  simp only [dobVerifiedFlag, hb, Bool.or_eq_true, List.any_eq_true]
  exact Or.inl ⟨fmt, hfmt, Or.inl (by simp [h])⟩

-- Main induction: as long as the digits still to come complete a stored
-- rendering, every turn before completion takes the continuation branch,
-- and the turn that completes it verifies.
theorem runDobTurns_verifies (b : Borrower) (d : Dob)
    (hb : b.dateOfBirth = some d)
    (fmt : List Char) (hfmt : fmt ∈ dobFormats d) :
    ∀ (us chunks : List (List Char)) (s : Session),
      List.Forall₂ (fun u c => dobDigits u = c) us chunks →
      s.stage = Stage.verifyDob →
      s.partialDob ++ chunks.join = fmt →
      s.partialDob ≠ fmt →
      (runDobTurns b s us).1.verifiedDob = true ∧
      (runDobTurns b s us).1.stage = Stage.verifyAccount ∧
      (runDobTurns b s us).1.attempts = 0 ∧
      (runDobTurns b s us).2 ≠ [] ∧
      ∀ r ∈ (runDobTurns b s us).2.dropLast,
        r = { response := dobContinueResp, stage := Stage.verifyDob,
              transfer := false } := by
  intro us
  induction us with
  | nil =>
      intro chunks s hf hs hacc hne
      cases hf
      simp only [List.join_nil, List.append_nil] at hacc
      exact absurd hacc hne
  | cons u us ih =>
      intro chunks s hf hs hacc hne
      cases hf with
      | cons hc hf' =>
          rename_i c cs
          cases hflag : dobVerifiedFlag b s.partialDob u with
          | true =>
              simp only [runDobTurns, handleVerifyDob_verified s b u hflag]
              simp
          | false =>
              have hacc' : (s.partialDob ++ c) ++ cs.join = fmt := by
                rw [← hacc]
                simp [List.append_assoc]
              have hne' : s.partialDob ++ c ≠ fmt := by
                intro heq
                have hv : dobVerifiedFlag b s.partialDob u = true :=
                  dobVerifiedFlag_of_acc_eq b d hb fmt hfmt s u
                    (by rw [hc]; exact heq)
                rw [hv] at hflag
                cases hflag
              have hlen : (s.partialDob ++ dobDigits u).length < 8 := by
                have h1 : (s.partialDob ++ c).length + cs.join.length
                    = fmt.length := by
                  rw [← hacc']
                  simp [List.length_append]
                  omega
                have h2 := dobFormats_length d fmt hfmt
                have h4 : (s.partialDob ++ c).length ≠ fmt.length := by
                  intro heq
                  have h5 : cs.join.length = 0 := by omega
                  have h6 := List.eq_nil_of_length_eq_zero h5
                  rw [h6, List.append_nil] at hacc'
                  exact hne' hacc'
                rw [hc]
                simp only [List.length_append] at h1 h4 ⊢
                omega
              have hstep := handleVerifyDob_continue s b u hflag hlen
              have hih := ih cs { s with partialDob := s.partialDob ++ dobDigits u }
                hf' (by simpa using hs)
                (by simpa [hc, List.append_assoc] using hacc')
                (by rw [hc]; exact hne')
              have hcond :
                  ({ s with partialDob := s.partialDob ++ dobDigits u } :
                      Session).stage = Stage.verifyDob := hs
              simp only [runDobTurns, hstep]
              rw [if_pos hcond]
              refine ⟨hih.1, hih.2.1, hih.2.2.1, by simp, ?_⟩
              intro r hr
              rw [List.dropLast_cons_of_ne_nil hih.2.2.2.1] at hr
              rcases List.mem_cons.mp hr with hr | hr
              · rw [hr, hs]
              · exact hih.2.2.2.2 r hr

/-- C3: accumulating digits across verify-dob turns.  (1) For every stored
date of birth, every supported rendering of it, and every way of splitting
that rendering's digits across a sequence of utterances (each utterance's
word-normalised digit yield being one piece), iterating the verify-dob
handler from an empty accumulator verifies the date of birth and moves the
stage to `verify_account`; every turn before the verifying one answers only
with the continuation prompt (no attempt consumed, no transfer).  (2) In
general, any unverified turn whose accumulated digits are still below 8
leaves the attempt counter untouched and prompts for continuation. -/
theorem C3_multiturn_dob_accumulation :
    (∀ (b : Borrower) (d : Dob) (fmt : List Char)
        (us chunks : List (List Char)) (s : Session),
        b.dateOfBirth = some d →
        fmt ∈ dobFormats d →
        List.Forall₂ (fun u c => dobDigits u = c) us chunks →
        chunks.join = fmt →
        s.stage = Stage.verifyDob →
        s.partialDob = [] →
        (runDobTurns b s us).1.verifiedDob = true ∧
        (runDobTurns b s us).1.stage = Stage.verifyAccount ∧
        (runDobTurns b s us).1.attempts = 0 ∧
        (runDobTurns b s us).2 ≠ [] ∧
        ∀ r ∈ (runDobTurns b s us).2.dropLast,
          r = { response := dobContinueResp, stage := Stage.verifyDob,
                transfer := false })
  ∧ (∀ (s : Session) (b : Borrower) (u : List Char),
        dobVerifiedFlag b s.partialDob u = false →
        (s.partialDob ++ dobDigits u).length < 8 →
        handleVerifyDob s b u =
          ({ s with partialDob := s.partialDob ++ dobDigits u },
           { response := dobContinueResp, stage := s.stage,
             transfer := false })) := by
  constructor
  · intro b d fmt us chunks s hb hfmt hf hjoin hs hpar
    have hfne : fmt ≠ [] := by
      intro h
      rcases dobFormats_length d fmt hfmt with hl | hl <;> rw [h] at hl <;>
        simp at hl
    exact runDobTurns_verifies b d hb fmt hfmt us chunks s hf hs
      (by rw [hpar, List.nil_append]; exact hjoin)
      (by rw [hpar]; exact fun h => hfne h.symm)
  · exact handleVerifyDob_continue

/-- C3 witness: the stored date 1986-09-14 rendered as "09141986", split
into the turns "0914" then "1986": the first turn prompts for
continuation, the second verifies and moves to `verify_account`. -/
theorem C3_multiturn_dob_witness :
    ((runDobTurns sampleBorrower { freshSession with stage := Stage.verifyDob }
        ["0914".data, "1986".data]).1.verifiedDob = true ∧
     (runDobTurns sampleBorrower { freshSession with stage := Stage.verifyDob }
        ["0914".data, "1986".data]).1.stage = Stage.verifyAccount ∧
     (runDobTurns sampleBorrower { freshSession with stage := Stage.verifyDob }
        ["0914".data, "1986".data]).1.attempts = 0 ∧
     (runDobTurns sampleBorrower { freshSession with stage := Stage.verifyDob }
        ["0914".data, "1986".data]).2 ≠ [] ∧
     ∀ r ∈ (runDobTurns sampleBorrower
        { freshSession with stage := Stage.verifyDob }
        ["0914".data, "1986".data]).2.dropLast,
        r = { response := dobContinueResp, stage := Stage.verifyDob,
              transfer := false }) ∧
    handleVerifyDob { freshSession with stage := Stage.verifyDob }
        sampleBorrower "0914".data =
      ({ freshSession with stage := Stage.verifyDob,
                           partialDob := ([] : List Char) ++ dobDigits "0914".data },
       { response := dobContinueResp, stage := Stage.verifyDob,
         transfer := false }) :=
  ⟨C3_multiturn_dob_accumulation.1 sampleBorrower ⟨1986, 9, 14⟩
      "09141986".data ["0914".data, "1986".data]
      ["0914".data, "1986".data]
      { freshSession with stage := Stage.verifyDob } rfl (by decide)
      (List.Forall₂.cons (by decide) (List.Forall₂.cons (by decide)
        List.Forall₂.nil))
      (by decide) rfl rfl,
   C3_multiturn_dob_accumulation.2 { freshSession with stage := Stage.verifyDob }
      sampleBorrower "0914".data (by decide) (by decide)⟩

end CallBridge

namespace CallBridge

-- Basic facts about the prefix test.
theorem startsWithL_length :
    ∀ (w s : List Char), startsWithL w s = true → w.length ≤ s.length := by
  intro w
  induction w with
  | nil => intro s _; simp
  | cons x xs ih =>
      intro s h
      cases s with
      | nil => simp [startsWithL] at h
      | cons y ys =>
          simp only [startsWithL, Bool.and_eq_true] at h
          simpa using ih ys h.2

theorem startsWithL_append_left :
    ∀ (w a t : List Char), startsWithL w a = true →
      startsWithL w (a ++ t) = true := by
  intro w
  induction w with
  | nil => intro a t _; rfl
  | cons x xs ih =>
      intro a t h
      cases a with
      | nil => simp [startsWithL] at h
      | cons y ys =>
          simp only [startsWithL, Bool.and_eq_true] at h
          simp only [List.cons_append, startsWithL, Bool.and_eq_true]
          exact ⟨h.1, ih ys t h.2⟩

theorem startsWithL_of_append :
    ∀ (w a t : List Char), startsWithL w (a ++ t) = true →
      w.length ≤ a.length → startsWithL w a = true := by
  intro w
  induction w with
  | nil => intro a t _ _; rfl
  | cons x xs ih =>
      intro a t h hlen
      cases a with
      | nil => simp at hlen
      | cons y ys =>
          simp only [List.cons_append, startsWithL, Bool.and_eq_true] at h
          simp only [startsWithL, Bool.and_eq_true]
          simp only [List.length_cons, Nat.add_le_add_iff_right] at hlen
          exact ⟨h.1, ih ys t h.2 hlen⟩

-- A pattern containing no space cannot straddle the space of
-- `a ++ spaceChar :: b`: when it matches there, it lies within `a`.
theorem startsWithL_space_bound :
    ∀ (w a b : List Char), startsWithL w (a ++ spaceChar :: b) = true →
      spaceChar ∉ w → w.length ≤ a.length := by
  intro w
  induction w with
  | nil => intro a b _ _; simp
  | cons x xs ih =>
      intro a b h hsp
      cases a with
      | nil =>
          simp only [List.nil_append, startsWithL, Bool.and_eq_true,
            beq_iff_eq] at h
          exact absurd (h.1 ▸ List.mem_cons_self x xs) hsp
      | cons y ys =>
          simp only [List.cons_append, startsWithL, Bool.and_eq_true] at h
          have hsp' : spaceChar ∉ xs := fun hx => hsp (List.mem_cons_of_mem x hx)
          simpa using ih ys b h.2 hsp'

-- `str.replace` with a non-empty, space-free pattern acts independently on
-- the two sides of a space.
theorem replaceAll_split_aux (w n : List Char) (hw : w ≠ [])
    (hsp : spaceChar ∉ w) :
    ∀ (k : Nat) (a : List Char), a.length ≤ k →
      ∀ b, replaceAll w n (a ++ spaceChar :: b) =
        replaceAll w n a ++ spaceChar :: replaceAll w n b := by
  have hwe : w.isEmpty = false := by
    cases w with
    | nil => exact absurd rfl hw
    | cons x xs => rfl
  have hbase : ∀ b, replaceAll w n (spaceChar :: b) =
      spaceChar :: replaceAll w n b := by
    intro b
    rw [replaceAll_cons]
    have hfalse : startsWithL w (spaceChar :: b) = false := by
      cases w with
      | nil => exact absurd rfl hw
      | cons x xs =>
          have hx : x ≠ spaceChar := fun hx =>
            hsp (hx ▸ List.mem_cons_self x xs)
          simp [startsWithL, hx]
    simp [hfalse]
  intro k
  induction k with
  | zero =>
      intro a ha b
      have : a = [] := List.eq_nil_of_length_eq_zero (Nat.le_zero.mp ha)
      subst this
      rw [replaceAll_nil, List.nil_append, List.nil_append]
      exact hbase b
  | succ k ih =>
      intro a ha b
      cases a with
      | nil =>
          rw [replaceAll_nil, List.nil_append, List.nil_append]
          exact hbase b
      | cons c cs =>
          simp only [List.length_cons, Nat.add_le_add_iff_right] at ha
          rw [List.cons_append, replaceAll_cons, replaceAll_cons w n c cs]
          cases hstart : startsWithL w (c :: (cs ++ spaceChar :: b)) with
          | true =>
              have hstart1 : startsWithL w ((c :: cs) ++ spaceChar :: b)
                  = true := by
                rw [List.cons_append]
                exact hstart
              have hlen : w.length ≤ (c :: cs).length :=
                startsWithL_space_bound w (c :: cs) b hstart1 hsp
              have hstart2 : startsWithL w (c :: cs) = true :=
                startsWithL_of_append w (c :: cs) (spaceChar :: b) hstart1 hlen
              have hdrop : (cs ++ spaceChar :: b).drop (w.length - 1) =
                  cs.drop (w.length - 1) ++ spaceChar :: b := by
                rw [List.drop_append_eq_append_drop]
                have : w.length - 1 - cs.length = 0 := by
                  simp only [List.length_cons] at hlen
                  omega
                rw [this, List.drop_zero]
              have hrec := ih (cs.drop (w.length - 1))
                (by simp only [List.length_drop]; omega) b
              simp only [hstart, hstart2, hwe, Bool.not_false, Bool.and_true,
                if_true, hdrop, hrec, List.append_assoc]
          | false =>
              have hstart2 : startsWithL w (c :: cs) = false := by
                cases hx : startsWithL w (c :: cs) with
                | false => rfl
                | true =>
                    have := startsWithL_append_left w (c :: cs)
                      (spaceChar :: b) hx
                    rw [List.cons_append] at this
                    rw [this] at hstart
                    cases hstart
              have hrec := ih cs ha b
              simp only [hstart, hstart2, Bool.false_and, Bool.false_eq_true,
                if_false, hrec, List.cons_append]

theorem replaceAll_split (w n : List Char) (hw : w ≠ [])
    (hsp : spaceChar ∉ w) (a b : List Char) :
    replaceAll w n (a ++ spaceChar :: b) =
      replaceAll w n a ++ spaceChar :: replaceAll w n b :=
  replaceAll_split_aux w n hw hsp a.length a (le_refl _) b

-- The whole replacement chain acts independently on the two sides of a
-- space, provided every pattern is non-empty and space-free.
theorem applyReplacements_split :
    ∀ (pairs : List (List Char × List Char)),
      (∀ p ∈ pairs, p.1 ≠ [] ∧ spaceChar ∉ p.1) →
      ∀ (a b : List Char),
        applyReplacements pairs (a ++ spaceChar :: b) =
          applyReplacements pairs a ++ spaceChar :: applyReplacements pairs b := by
  intro pairs
  induction pairs with
  | nil => intro _ a b; simp [applyReplacements]
  | cons p ps ih =>
      intro hp a b
      have hhead := hp p (List.mem_cons_self p ps)
      have htail : ∀ q ∈ ps, q.1 ≠ [] ∧ spaceChar ∉ q.1 := fun q hq =>
        hp q (List.mem_cons_of_mem p hq)
      simp only [applyReplacements, List.foldl_cons]
      rw [replaceAll_split p.1 p.2 hhead.1 hhead.2 a b]
      exact ih htail (replaceAll p.1 p.2 a) (replaceAll p.1 p.2 b)

-- Every pattern of the account word map is non-empty and space-free.
theorem acctWordMap_sound : ∀ p ∈ acctWordMap, p.1 ≠ [] ∧ spaceChar ∉ p.1 := by
  decide

-- Lower-casing respects the splitting space.
theorem toLowerL_split (a b : List Char) :
    toLowerL (a ++ spaceChar :: b) = toLowerL a ++ spaceChar :: toLowerL b := by
  have : lowerChar spaceChar = spaceChar := by decide
  simp [toLowerL, this]

-- Digit extraction drops a separating space.
theorem extractDigits_space (a b : List Char) :
    extractDigits (a ++ spaceChar :: b) =
      extractDigits a ++ extractDigits b := by
  have h : spaceChar.isDigit = false := by decide
  simp [extractDigits, List.filter_append, List.filter_cons, h]

-- Account-digit extraction distributes over a separating space.
theorem acctDigits_split (a b : List Char) :
    acctDigits (a ++ spaceChar :: b) = acctDigits a ++ acctDigits b := by
  unfold acctDigits
  rw [toLowerL_split, applyReplacements_split acctWordMap acctWordMap_sound,
    extractDigits_space]

-- The account `verified` flag depends on the utterance only through its
-- extracted digits.
theorem accountVerifiedFlag_congr (b : Borrower) (u v : List Char)
    (h : acctDigits u = acctDigits v) :
    accountVerifiedFlag b u = accountVerifiedFlag b v := by
  simp [accountVerifiedFlag, h]

/-- C8: account verification is invariant under prepending spoken filler —
any prefix ending in a space that normalises to no digit — and acceptance
is exactly the stored last-four matching the extracted digits outright or
occurring as a substring of at least 4 extracted digits. -/
theorem C8_account_filler_invariance :
    (∀ (b : Borrower) (f u : List Char), IsFiller f →
        accountVerifiedFlag b (f ++ u) = accountVerifiedFlag b u)
  ∧ (∀ (b : Borrower) (u : List Char),
        accountVerifiedFlag b u = true ↔
          (b.accountLastFour = acctDigits u ∨
           (4 ≤ (acctDigits u).length ∧
            containsSub (acctDigits u) b.accountLastFour = true))) := by
  constructor
  · intro b f u hf
    obtain ⟨⟨g, rfl⟩, hdig⟩ := hf
    have hg : acctDigits g = [] := by
      have := acctDigits_split g []
      rw [show (g ++ [spaceChar] : List Char) = g ++ spaceChar :: [] from rfl]
        at hdig
      rw [this] at hdig
      have hnil : acctDigits ([] : List Char) = [] := rfl
      rw [hnil, List.append_nil] at hdig
      exact hdig
    have hsplit : acctDigits ((g ++ [spaceChar]) ++ u) = acctDigits u := by
      rw [List.append_assoc]
      rw [show ([spaceChar] ++ u : List Char) = spaceChar :: u from rfl]
      rw [acctDigits_split, hg, List.nil_append]
    exact accountVerifiedFlag_congr b _ u hsplit
  · intro b u
    simp [accountVerifiedFlag, Bool.or_eq_true, Bool.and_eq_true,
      beq_iff_eq, decide_eq_true_iff]

/-- C8 witness: the filler "it is " prepended to "one two three four"
with stored last-four 1234, and the exactness characterisation at the
same utterance. -/
theorem C8_account_filler_witness :
    accountVerifiedFlag sampleBorrower
        ("it is ".data ++ "one two three four".data) =
      accountVerifiedFlag sampleBorrower "one two three four".data ∧
    (accountVerifiedFlag sampleBorrower "one two three four".data = true ↔
      (sampleBorrower.accountLastFour =
          acctDigits "one two three four".data ∨
       (4 ≤ (acctDigits "one two three four".data).length ∧
        containsSub (acctDigits "one two three four".data)
          sampleBorrower.accountLastFour = true))) :=
  ⟨C8_account_filler_invariance.1 sampleBorrower "it is ".data
      "one two three four".data ⟨⟨"it is".data, by decide⟩, by decide⟩,
   C8_account_filler_invariance.2 sampleBorrower "one two three four".data⟩

end CallBridge
